import Mathlib

/-!
Verification of the Course-connect study-timer repository.

The development shallowly embeds the two source modules:

* the Countdown Engine: the hook in `src/src/hooks/useFocusTimer.ts`
  (state: duration, timeLeft, status, coins, intervalRef; operations:
  startTimer, pauseTimer, resumeTimer, stopTimer, resetTimer,
  updateDuration, and the one-second interval callback), and
* the Record Store: the hook in `src/unnamed/part_000` (`useStudySessions`,
  state: sessions, modules, isLoading; operations: fetchData,
  createStudySession, logTimerSession, getMostStudiedModules).

React `useState` cells become record fields and each handler becomes a pure
function from state to state.  `window.setInterval` / `clearInterval` are
modelled by an explicit list of currently scheduled interval ids: setInterval
appends a caller-supplied fresh id, clearInterval erases an id (a no-op when
the id is not scheduled, as in the browser).  Remote (supabase) results are
passed to the embedded operations as explicit parameters.  Notifications
(toast) and the auto-log call are modelled as emitted events.
-/

/-- Status values of the focus timer (`TimerStatus` in useFocusTimer.ts). -/
inductive TimerStatus
  | idle
  | running
  | paused
  | completed
deriving DecidableEq, Repr

/-- Observable side effects of the Countdown Engine: a toast notification
(title and description) or an invocation of `logTimerSession` with the
duration argument in minutes (`duration / 60` is real division in the
source, hence a rational argument). -/
inductive TimerEvent
  | toast (title : String) (description : String)
  | logSession (minutes : ℚ)
deriving DecidableEq, Repr

/-- State of the Countdown Engine hook (useFocusTimer.ts lines 8-12).
`duration` and `timeLeft` are in seconds.  `intervals` is the list of
interval ids currently scheduled in the browser; `intervalRef` is the
mutable ref cell `intervalRef.current` (it may retain a stale id after the
interval was cleared, exactly as in the source). -/
structure TimerState where
  duration : Nat
  timeLeft : Nat
  status : TimerStatus
  coins : Nat
  intervals : List Nat
  intervalRef : Option Nat
deriving DecidableEq, Repr

/-- Initial hook state (useFocusTimer.ts lines 8-12): default duration
25 minutes in seconds, timeLeft mirrored from it, idle, no coins, no
scheduled interval. -/
def initialTimer : TimerState :=
  { duration := 25 * 60
    timeLeft := 25 * 60
    status := TimerStatus.idle
    coins := 0
    intervals := []
    intervalRef := none }

/-- Clearing of the interval named by the ref cell, shared by
`if (intervalRef.current) clearInterval(intervalRef.current)` (line 33) and
the unconditional `clearInterval(intervalRef.current!)` calls (lines 38, 72,
88): erase the ref's id from the scheduled set if the ref holds one;
`clearInterval` on a stale or absent id is harmless. -/
def clearTick (s : TimerState) : TimerState :=
  match s.intervalRef with
  | some oldId => { s with intervals := s.intervals.erase oldId }
  | none => s

/-- Embedding of `startTimer` (useFocusTimer.ts lines 29-67) minus the body
of the interval callback, which is `tick` below: guarded on idle or paused,
sets status running, clears any previously scheduled interval, schedules a
fresh one (`newId` stands for the id returned by `window.setInterval`) and
stores it in the ref. -/
def startTimer (s : TimerState) (newId : Nat) : TimerState :=
  if s.status = TimerStatus.idle ∨ s.status = TimerStatus.paused then
    let s1 := clearTick { s with status := TimerStatus.running }
    { s1 with intervals := s1.intervals ++ [newId], intervalRef := some newId }
  else s

/-- One firing of the interval callback installed by `startTimer`
(useFocusTimer.ts lines 36-64).  When no interval is scheduled there is no
callback to fire and the state is unchanged.  Otherwise, following the
source: with `prev <= 1` the interval is cleared and status set to
completed; if `prev <= 0` the callback returns 0 immediately (no coins, no
log, no toast); otherwise it computes `earnedCoins = max(1, floor(duration
/ 10))` — note `duration` is in seconds — accumulates it into `coins`,
fires the auto-log call with `duration / 60` minutes, schedules the
completion toast, and returns 0.  With `prev > 1` it just decrements.
The callback closes over `duration`; while an interval is scheduled the
engine's duration cannot change (updateDuration is guarded to idle and
every path out of idle clears the interval first), so the current field
value is the captured one. -/
def tick (s : TimerState) : TimerState × List TimerEvent :=
  if s.intervals = [] then (s, [])
  else if s.timeLeft ≤ 1 then
    let s1 := clearTick { s with status := TimerStatus.completed }
    if s.timeLeft = 0 then ({ s1 with timeLeft := 0 }, [])
    else
      let earnedCoins := max 1 (s.duration / 10)
      ({ s1 with timeLeft := 0, coins := s.coins + earnedCoins },
       [TimerEvent.logSession ((s.duration : ℚ) / 60),
        TimerEvent.toast "Study Session Completed!"
          ("You earned " ++ toString earnedCoins ++ " coins!")])
  else ({ s with timeLeft := s.timeLeft - 1 }, [])

/-- Embedding of `pauseTimer` (useFocusTimer.ts lines 70-79): from running,
clear the interval, set status paused, emit the pause toast. -/
def pauseTimer (s : TimerState) : TimerState × List TimerEvent :=
  if s.status = TimerStatus.running then
    (clearTick { s with status := TimerStatus.paused },
     [TimerEvent.toast "Timer Paused"
        "Taking a short break is okay. Stay consistent!"])
  else (s, [])

/-- Embedding of `resumeTimer` (useFocusTimer.ts lines 82-86): from paused,
delegate to `startTimer`. -/
def resumeTimer (s : TimerState) (newId : Nat) : TimerState :=
  if s.status = TimerStatus.paused then startTimer s newId else s

/-- Embedding of `stopTimer` (useFocusTimer.ts lines 88-96): from any
status, clear the interval, set status idle, reset timeLeft to the full
duration, emit the stop toast. -/
def stopTimer (s : TimerState) : TimerState × List TimerEvent :=
  ({ clearTick s with status := TimerStatus.idle, timeLeft := s.duration },
   [TimerEvent.toast "Timer Stopped" "Your focus session has been reset."])

/-- Embedding of `resetTimer` (useFocusTimer.ts lines 98-100): it just
calls `stopTimer`. -/
def resetTimer (s : TimerState) : TimerState × List TimerEvent :=
  stopTimer s

/-- Embedding of `updateDuration` (useFocusTimer.ts lines 102-108): only
honoured while idle; sets duration to `minutes * 60` seconds and mirrors
it into timeLeft.  (The effect at lines 23-27, re-mirroring duration into
timeLeft while idle, is already maintained by every operation here and adds
nothing to the model.) -/
def updateDuration (s : TimerState) (minutes : Nat) : TimerState :=
  if s.status = TimerStatus.idle then
    { s with duration := minutes * 60, timeLeft := minutes * 60 }
  else s

/-- Iterated firing of the interval callback: `ticks n s` fires the
callback `n` times, collecting the emitted events in order. -/
def ticks : Nat → TimerState → TimerState × List TimerEvent
  | 0, s => (s, [])
  | Nat.succ n, s =>
    let p := tick s
    let q := ticks n p.1
    (q.1, p.2 ++ q.2)

/-- Scheduling invariant of the engine: either no interval is scheduled, or
the scheduled intervals are exactly the one the ref names.  It holds in the
initial state and is preserved by every operation (proved in the C3
theorem), and captures the source's discipline of always clearing the
ref's interval before scheduling a new one. -/
def TimerInv (s : TimerState) : Prop :=
  s.intervals = [] ∨ s.intervals = s.intervalRef.toList

/-- Recognizer for the auto-log events among the engine's emitted events. -/
def isLogEvent : TimerEvent → Bool
  | TimerEvent.logSession _ => true
  | _ => false

/-- Sample mid-run state used by concrete instantiations: a running timer
with one scheduled interval and 7 seconds left. -/
def runningSample : TimerState :=
  { initialTimer with status := TimerStatus.running, timeLeft := 7, intervals := [4], intervalRef := some 4 }

/-- Sample state one second before completion of a 30-second run. -/
def completingSample : TimerState :=
  { initialTimer with duration := 30, timeLeft := 1, status := TimerStatus.running, intervals := [4], intervalRef := some 4 }

/-- Sample freshly started 90-second countdown. -/
def countdownSample : TimerState :=
  { duration := 90, timeLeft := 90, status := TimerStatus.running, coins := 0, intervals := [9], intervalRef := some 9 }

/-- Sample state reached by configure(25) then start: a 25-minute (1500
second) countdown freshly begun. -/
def startedSample25 : TimerState :=
  { duration := 1500, timeLeft := 1500, status := TimerStatus.running, coins := 0, intervals := [3], intervalRef := some 3 }

/-- Sample state of a 25-minute countdown one second before completion. -/
def longRunSample : TimerState :=
  { duration := 1500, timeLeft := 1, status := TimerStatus.running, coins := 0, intervals := [3], intervalRef := some 3 }

namespace Store

/-- Reference row of the `modules` table (`Module` in part_000 lines 16-20). -/
structure Module where
  id : String
  module_code : String
  module_title : String
deriving DecidableEq, Repr

/-- Row of the `study_sessions` table (`StudySession` in part_000 lines
5-14); `duration` is in minutes. -/
structure StudySession where
  id : String
  user_id : String
  module_id : Option String
  duration : Nat
  date : String
  notes : Option String
  created_at : Option String
  earned_coins : Option Nat
deriving DecidableEq, Repr

/-- State of the `useStudySessions` hook (part_000 lines 23-25): the
sessions cache, the modules cache and the loading flag. -/
structure StoreState where
  sessions : List StudySession
  modules : List Module
  isLoading : Bool
deriving DecidableEq, Repr

/-- Initial hook state: both caches empty, isLoading true (part_000
lines 23-25). -/
def initialStore : StoreState :=
  { sessions := [], modules := [], isLoading := true }

/-- Embedding of `fetchData` (part_000 lines 29-56).  The three remote
results are parameters: the authenticated user (the `if (!user) throw` path
is the only uncaught-then-caught failure — the supabase query builders
resolve with `data: null` on error rather than rejecting, and the source
reads only `data`, coercing null to `[]`).  The `finally` block clears
isLoading on every path. -/
def fetchData (userRes : Option String) (modulesRes : Option (List Module))
    (sessionsRes : Option (List StudySession)) (st : StoreState) : StoreState :=
  let st1 := { st with isLoading := true }
  let st2 :=
    match userRes with
    | none => st1
    | some _ => { st1 with modules := modulesRes.getD [], sessions := sessionsRes.getD [] }
  { st2 with isLoading := false }

/-- Row sent to the remote insert by `createStudySession` (part_000 lines
89-90): the server supplies id and created_at, the client supplies the
rest, including the computed `earned_coins`. -/
structure NewSession where
  user_id : String
  module_id : Option String
  duration : Nat
  date : String
  notes : Option String
  earned_coins : Nat
deriving DecidableEq, Repr

/-- The `newSession` object built at part_000 lines 89-90:
`earned_coins = Math.max(1, Math.floor(duration / 10))` where `duration`
is the minutes argument. -/
def newSessionPayload (uid : String) (moduleId : Option String) (duration : Nat)
    (date : String) (notes : Option String) : NewSession :=
  { user_id := uid
    module_id := moduleId
    duration := duration
    date := date
    notes := notes
    earned_coins := max 1 (duration / 10) }

/-- Embedding of `createStudySession` (part_000 lines 84-104).  `authUser`
is the result of `supabase.auth.getUser()`; `insertRes` is the remote
insert's response to the sent row: an error (thrown, then caught at the
function's boundary — the catch returns null, so the model is total and
nothing propagates), a null `data` (the source then falls through and
returns undefined, modelled as none, without touching the cache), or the
inserted row, which is prepended to the sessions cache and returned. -/
def createStudySession (authUser : Option String)
    (insertRes : NewSession → Except String (Option StudySession))
    (st : StoreState) (moduleId : Option String) (duration : Nat)
    (date : String) (notes : Option String) : StoreState × Option StudySession :=
  match authUser with
  | none => (st, none)
  | some uid =>
    match insertRes (newSessionPayload uid moduleId duration date notes) with
    | Except.error _ => (st, none)
    | Except.ok none => (st, none)
    | Except.ok (some row) => ({ st with sessions := row :: st.sessions }, some row)

/-- Embedding of `logTimerSession` (part_000 lines 107-110): stamps
today's date (a parameter here) and the fixed notes text, then delegates
to `createStudySession`. -/
def logTimerSession (authUser : Option String)
    (insertRes : NewSession → Except String (Option StudySession))
    (st : StoreState) (today : String) (duration : Nat)
    (moduleId : Option String) : StoreState × Option StudySession :=
  createStudySession authUser insertRes st moduleId duration today
    (some "Logged from Focus Timer")

/-- One step of the `moduleStats` accumulation in `getMostStudiedModules`
(part_000 lines 69-73): for an existing key add the duration to its entry,
otherwise append the key (JavaScript object string keys keep insertion
order). -/
def addStat (stats : List (String × Nat)) (id : String) (d : Nat) : List (String × Nat) :=
  if stats.any (fun p => p.1 == id) then
    stats.map (fun p => if p.1 == id then (p.1, p.2 + d) else p)
  else stats ++ [(id, d)]

/-- The `sessions.forEach` loop of `getMostStudiedModules` (part_000 lines
70-74): entries with no module_id are skipped. -/
def statStep (stats : List (String × Nat)) (s : StudySession) : List (String × Nat) :=
  match s.module_id with
  | some id => addStat stats id s.duration
  | none => stats

/-- The fully accumulated `moduleStats` object as an insertion-ordered
association list. -/
def buildStats (sessions : List StudySession) : List (String × Nat) :=
  sessions.foldl statStep []

/-- Keys of the stats object. -/
def statKeys (stats : List (String × Nat)) : List String :=
  stats.map Prod.fst

/-- Value stored under a key of the stats object (0 when absent). -/
def statVal (stats : List (String × Nat)) (id : String) : Nat :=
  ((stats.find? (fun p => p.1 == id)).map Prod.snd).getD 0

/-- Resolution of a module id to a display title (part_000 line 79):
`modules.find(...)?.module_title || 'Unknown Module'` — note `||` also
replaces an empty title by the placeholder. -/
def resolveModuleName (modules : List Module) (id : String) : String :=
  match modules.find? (fun m => m.id == id) with
  | some m => if m.module_title == "" then "Unknown Module" else m.module_title
  | none => "Unknown Module"

/-- Element of `getMostStudiedModules`'s result (part_000 lines 76-80). -/
structure ModuleStat where
  moduleId : String
  duration : Nat
  moduleName : String
deriving DecidableEq, Repr

/-- Embedding of `getMostStudiedModules` (part_000 lines 67-81):
`Object.entries(moduleStats).sort((a, b) => b[1] - a[1]).map(...)`.
`Array.prototype.sort` is a stable sort placing `a` before `b` when the
comparator is non-positive, i.e. stable sorting by `b[1] <= a[1]`, which
`List.mergeSort` (stable) realizes. -/
def getMostStudiedModules (sessions : List StudySession) (modules : List Module) :
    List ModuleStat :=
  ((buildStats sessions).mergeSort (fun a b => decide (b.2 ≤ a.2))).map
    (fun p => { moduleId := p.1, duration := p.2, moduleName := resolveModuleName modules p.1 })

/-- Modelled from the spec: the total duration of the cached sessions
attributed to a given topic id — the per-group sum that
`mostStudiedTopics()` is specified to report. -/
def specTopicTotal (sessions : List StudySession) (id : String) : Nat :=
  ((sessions.filter (fun s => s.module_id == some id)).map (fun s => s.duration)).sum

/-- Sample session row. -/
def sampleSession (sid : String) (mid : Option String) (d : Nat) : StudySession :=
  { id := sid
    user_id := "u1"
    module_id := mid
    duration := d
    date := "2026-01-10"
    notes := none
    created_at := none
    earned_coins := none }

/-- The spec's worked example: topicA 30, topicB 10, topicA 5. -/
def exSessions : List StudySession :=
  [sampleSession "s1" (some "topicA") 30,
   sampleSession "s2" (some "topicB") 10,
   sampleSession "s3" (some "topicA") 5]

/-- Two modules resolving the example's topic ids. -/
def exModules : List Module :=
  [{ id := "topicA", module_code := "CS101", module_title := "Algorithms" },
   { id := "topicB", module_code := "BI101", module_title := "Biology" }]

/-- Expected first entry of the worked example. -/
def exEntryA : ModuleStat :=
  { moduleId := "topicA", duration := 35, moduleName := "Algorithms" }

/-- Expected second entry of the worked example. -/
def exEntryB : ModuleStat :=
  { moduleId := "topicB", duration := 10, moduleName := "Biology" }

end Store

lemma clearTick_coins (s : TimerState) : (clearTick s).coins = s.coins := by
  cases href : s.intervalRef <;> simp [clearTick, href]

lemma clearTick_duration (s : TimerState) :
    (clearTick s).duration = s.duration := by
  cases href : s.intervalRef <;> simp [clearTick, href]

lemma clearTick_intervals_of_inv (s : TimerState) (h : TimerInv s) :
    (clearTick s).intervals = [] := by
  rcases h with h | h <;> cases href : s.intervalRef <;>
    simp_all [clearTick, href, h]

/-- C7: updateDuration (configure) is a silent no-op while the status is
not idle, leaving duration and timeLeft unchanged; while idle it sets the
duration to `m * 60` seconds and mirrors that value into timeLeft. -/
theorem C7_updateDuration_guard (s : TimerState) (m : Nat) :
    (s.status ≠ TimerStatus.idle → updateDuration s m = s) ∧
    (s.status = TimerStatus.idle →
      (updateDuration s m).duration = m * 60 ∧
      (updateDuration s m).timeLeft = m * 60) := by
  constructor
  · intro h
    simp [updateDuration, h]
  · intro h
    simp [updateDuration, h]

/-- Witness for C7 at concrete inputs: a running engine ignores
configure(5); an idle engine takes duration and timeLeft 300. -/
theorem C7_updateDuration_guard_witness :
    updateDuration { initialTimer with status := TimerStatus.running } 5 =
      { initialTimer with status := TimerStatus.running } ∧
    (updateDuration initialTimer 5).duration = 5 * 60 ∧
    (updateDuration initialTimer 5).timeLeft = 5 * 60 :=
  ⟨(C7_updateDuration_guard { initialTimer with status := TimerStatus.running } 5).1
      (by decide),
   (C7_updateDuration_guard initialTimer 5).2 rfl⟩

/-- C6: stopTimer from any status yields status idle with timeLeft reset to
the full duration; stopping twice leaves the same timer state as stopping
once; and resetTimer is exactly stopTimer. -/
theorem C6_stopTimer_resets_and_idempotent (s : TimerState) (h : TimerInv s) :
    (stopTimer s).1.status = TimerStatus.idle ∧
    (stopTimer s).1.timeLeft = s.duration ∧
    (stopTimer (stopTimer s).1).1 = (stopTimer s).1 ∧
    resetTimer s = stopTimer s := by
  refine ⟨rfl, rfl, ?_, rfl⟩
  have hcleared : (clearTick s).intervals = [] := clearTick_intervals_of_inv s h
  obtain ⟨d, tl, st, c, ivs, ref⟩ := s
  cases ref <;> simp_all [stopTimer, clearTick] <;>
    rcases hcleared with h1 | h1 <;> simp [h1]

/-- Witness for C6: stop applied to a concrete running timer with one
scheduled interval. -/
theorem C6_stopTimer_resets_and_idempotent_witness :
    (stopTimer runningSample).1.status = TimerStatus.idle ∧
    (stopTimer runningSample).1.timeLeft = runningSample.duration ∧
    (stopTimer (stopTimer runningSample).1).1 = (stopTimer runningSample).1 :=
  have h := C6_stopTimer_resets_and_idempotent runningSample (Or.inr (by decide))
  ⟨h.1, h.2.1, h.2.2.1⟩

/-- C9: starting the timer while remaining time is already 0 (reachable via
configure(0) then start): the first tick sets status completed and clamps
timeLeft to 0, but awards no coins, emits no auto-log call and no
completion toast. -/
theorem C9_zero_time_completion_is_silent :
    (tick (startTimer (updateDuration initialTimer 0) 17)).1.status =
      TimerStatus.completed ∧
    (tick (startTimer (updateDuration initialTimer 0) 17)).1.timeLeft = 0 ∧
    (tick (startTimer (updateDuration initialTimer 0) 17)).1.coins =
      (startTimer (updateDuration initialTimer 0) 17).coins ∧
    (tick (startTimer (updateDuration initialTimer 0) 17)).2 = [] := by
  decide

/-- C10: the coin total never decreases: every engine operation other than
the tick leaves it unchanged (in particular stopTimer and resetTimer reset
time and status but keep the coins), the tick can only increase it, and
when the tick changes it the resulting status is completed (only the
completion path adds coins). -/
theorem C10_coins_monotone (s : TimerState) (i m : Nat) :
    (startTimer s i).coins = s.coins ∧
    (pauseTimer s).1.coins = s.coins ∧
    (resumeTimer s i).coins = s.coins ∧
    (stopTimer s).1.coins = s.coins ∧
    (resetTimer s).1.coins = s.coins ∧
    (updateDuration s m).coins = s.coins ∧
    s.coins ≤ (tick s).1.coins ∧
    ((tick s).1.coins ≠ s.coins → (tick s).1.status = TimerStatus.completed) := by
  refine ⟨?_, ?_, ?_, ?_, ?_, ?_, ?_, ?_⟩
  · unfold startTimer
    split <;> simp [clearTick_coins]
  · unfold pauseTimer
    split <;> simp [clearTick_coins]
  · unfold resumeTimer startTimer
    split <;> [skip; rfl]
    split <;> simp [clearTick_coins]
  · simp [stopTimer, clearTick_coins]
  · simp [resetTimer, stopTimer, clearTick_coins]
  · unfold updateDuration
    split <;> simp
  · unfold tick
    split
    · simp
    · split
      · split <;> simp [clearTick_coins]
      · simp
  · unfold tick
    split
    · simp
    · split
      · intro _
        split <;> cases href : s.intervalRef <;> simp [clearTick, href]
      · simp

/-- Witness for C10 at a concrete completing state: coins unchanged by
start, and the tick that does change coins ends in status completed. -/
theorem C10_coins_monotone_witness :
    (startTimer completingSample 0).coins = completingSample.coins ∧
    (tick completingSample).1.status = TimerStatus.completed :=
  have h := C10_coins_monotone completingSample 0 0
  ⟨h.1, h.2.2.2.2.2.2.2 (by decide)⟩

lemma tick_decrement (s : TimerState) (hne : s.intervals ≠ []) (h2 : 2 ≤ s.timeLeft) :
    tick s = ({ s with timeLeft := s.timeLeft - 1 }, []) := by
  unfold tick
  rw [if_neg hne, if_neg (by omega)]

lemma ticks_decrement (k : Nat) :
    ∀ (s : TimerState), s.intervals ≠ [] → k + 1 ≤ s.timeLeft →
      ticks k s = ({ s with timeLeft := s.timeLeft - k }, []) := by
  induction k with
  | zero =>
    intro s h1 h2
    simp [ticks]
  | succ n ih =>
    intro s h1 h2
    have hd : tick s = ({ s with timeLeft := s.timeLeft - 1 }, []) :=
      tick_decrement s h1 (by omega)
    have hsub : s.timeLeft - 1 - n = s.timeLeft - (n + 1) := by omega
    simp only [ticks, hd]
    rw [ih { s with timeLeft := s.timeLeft - 1 } h1 (by simp; omega)]
    simp [hsub]

lemma ticks_add (a b : Nat) :
    ∀ s, ticks (a + b) s =
      ((ticks b (ticks a s).1).1, (ticks a s).2 ++ (ticks b (ticks a s).1).2) := by
  induction a with
  | zero =>
    intro s
    simp [ticks]
  | succ n ih =>
    intro s
    have hn : n + 1 + b = (n + b) + 1 := by omega
    rw [hn]
    simp only [ticks, ih]
    simp

/-- C2: a countdown with remaining time and configured duration D seconds,
status running and a single scheduled interval, driven by exactly D tick
firings, ends with timeLeft 0, status completed, and exactly one auto-log
invocation, whose argument is D / 60 minutes. -/
theorem C2_full_countdown (D i : Nat) (s : TimerState) (hD : 1 ≤ D)
    (hdur : s.duration = D) (htl : s.timeLeft = D)
    (hst : s.status = TimerStatus.running)
    (hiv : s.intervals = [i]) (href : s.intervalRef = some i) :
    (ticks D s).1.timeLeft = 0 ∧
    (ticks D s).1.status = TimerStatus.completed ∧
    (ticks D s).2.filter isLogEvent = [TimerEvent.logSession ((D : ℚ) / 60)] := by
  obtain ⟨k, rfl⟩ : ∃ k, D = k + 1 := ⟨D - 1, by omega⟩
  have hdec := ticks_decrement k s (by simp [hiv]) (by omega)
  have ht1 : s.timeLeft - k = 1 := by omega
  rw [ticks_add k 1 s, hdec]
  simp only [ht1]
  simp [ticks, tick, clearTick, hiv, href, hdur, isLogEvent, List.filter]

/-- Witness for C2: the 90-second countdown completes after 90 ticks and
logs one session of 1.5 minutes. -/
theorem C2_full_countdown_witness :
    (1 : Nat) ≤ 90 ∧
    ((ticks 90 countdownSample).1.timeLeft = 0 ∧
     (ticks 90 countdownSample).1.status = TimerStatus.completed ∧
     (ticks 90 countdownSample).2.filter isLogEvent =
       [TimerEvent.logSession (((90 : Nat) : ℚ) / 60)]) :=
  ⟨by decide, C2_full_countdown 90 9 countdownSample (by decide) rfl rfl rfl rfl rfl⟩

lemma timerInv_length (s : TimerState) (h : TimerInv s) :
    s.intervals.length ≤ 1 := by
  rcases h with h | h
  · simp [h]
  · rw [h]
    cases s.intervalRef <;> simp

lemma startTimer_not_guarded (s : TimerState) (i : Nat)
    (h : ¬ (s.status = TimerStatus.idle ∨ s.status = TimerStatus.paused)) :
    startTimer s i = s := by
  simp [startTimer, h]

lemma startTimer_guarded (s : TimerState) (i : Nat) (hinv : TimerInv s)
    (h : s.status = TimerStatus.idle ∨ s.status = TimerStatus.paused) :
    (startTimer s i).status = TimerStatus.running ∧
    (startTimer s i).intervals = [i] ∧
    (startTimer s i).intervalRef = some i := by
  have hcl : (clearTick { s with status := TimerStatus.running }).intervals = [] :=
    clearTick_intervals_of_inv { s with status := TimerStatus.running } hinv
  have hst : (clearTick { s with status := TimerStatus.running }).status =
      TimerStatus.running := by
    cases href : s.intervalRef <;> simp [clearTick, href]
  simp [startTimer, h, hcl, hst]

/-- C3: from a state satisfying the scheduling invariant, start from idle
or paused yields status running with exactly one scheduled tick source;
starting twice in a row never leaves two concurrent tick sources; and the
invariant holds initially and is preserved by every engine operation. -/
theorem C3_start_single_tick (s : TimerState) (i j m : Nat) (h : TimerInv s) :
    ((s.status = TimerStatus.idle ∨ s.status = TimerStatus.paused) →
      (startTimer s i).status = TimerStatus.running ∧
      (startTimer s i).intervals.length = 1) ∧
    (startTimer (startTimer s i) j).intervals.length ≤ 1 ∧
    TimerInv (startTimer s i) ∧
    TimerInv (pauseTimer s).1 ∧
    TimerInv (resumeTimer s i) ∧
    TimerInv (stopTimer s).1 ∧
    TimerInv (resetTimer s).1 ∧
    TimerInv (updateDuration s m) ∧
    TimerInv (tick s).1 ∧
    TimerInv initialTimer := by
  have hstart : ∀ (n : Nat), TimerInv (startTimer s n) := by
    intro n
    by_cases hg : s.status = TimerStatus.idle ∨ s.status = TimerStatus.paused
    · obtain ⟨-, hiv, href⟩ := startTimer_guarded s n h hg
      right
      rw [hiv, href]
      rfl
    · rw [startTimer_not_guarded s n hg]
      exact h
  refine ⟨?_, ?_, hstart i, ?_, ?_, ?_, ?_, ?_, ?_, Or.inl rfl⟩
  · intro hg
    obtain ⟨hst, hiv, -⟩ := startTimer_guarded s i h hg
    exact ⟨hst, by rw [hiv]; rfl⟩
  · by_cases hg : s.status = TimerStatus.running ∨ s.status = TimerStatus.completed
    · have hng : ¬ (s.status = TimerStatus.idle ∨ s.status = TimerStatus.paused) := by
        rcases hg with hg | hg <;> rw [hg] <;> decide
      rw [startTimer_not_guarded s i hng, startTimer_not_guarded s j hng]
      exact timerInv_length s h
    · have hg2 : s.status = TimerStatus.idle ∨ s.status = TimerStatus.paused := by
        cases hs : s.status <;> simp_all
      obtain ⟨hst, hiv, -⟩ := startTimer_guarded s i h hg2
      have hng : ¬ ((startTimer s i).status = TimerStatus.idle ∨
          (startTimer s i).status = TimerStatus.paused) := by
        rw [hst]; decide
      rw [startTimer_not_guarded (startTimer s i) j hng, hiv]
      simp
  · unfold pauseTimer
    split
    · left
      exact clearTick_intervals_of_inv { s with status := TimerStatus.paused } h
    · exact h
  · unfold resumeTimer
    split
    · exact hstart i
    · exact h
  · left
    exact clearTick_intervals_of_inv s h
  · left
    exact clearTick_intervals_of_inv s h
  · unfold updateDuration
    split
    · exact h
    · exact h
  · unfold tick
    split
    · exact h
    · split
      · split
        · left
          exact clearTick_intervals_of_inv { s with status := TimerStatus.completed } h
        · left
          exact clearTick_intervals_of_inv { s with status := TimerStatus.completed } h
      · exact h

/-- Witness for C3: starting the initial (idle) engine schedules exactly
one tick source, and a second start leaves at most one. -/
theorem C3_start_single_tick_witness :
    (startTimer initialTimer 5).status = TimerStatus.running ∧
    (startTimer initialTimer 5).intervals.length = 1 ∧
    (startTimer (startTimer initialTimer 5) 6).intervals.length ≤ 1 :=
  have h := C3_start_single_tick initialTimer 5 6 0 (Or.inl rfl)
  ⟨(h.1 (Or.inl rfl)).1, (h.1 (Or.inl rfl)).2, h.2.1⟩

/-- C1 counterexample: a 25-minute session (configure(25), start, full
countdown) makes the Countdown Engine accumulate 150 coins — the engine's
`duration` is in seconds, so it computes max(1, floor(1500 / 10)) — not
the claimed max(1, floor(25 / 10)) = 2. -/
theorem C1_reward_counterexample :
    (ticks (25 * 60) (startTimer (updateDuration initialTimer 25) 3)).1.coins = 150 ∧
    (150 : Nat) ≠ max 1 (25 / 10) := by
  constructor
  · have h0 : startTimer (updateDuration initialTimer 25) 3 = startedSample25 := by
      decide
    have h15 : (25 * 60 : Nat) = 1499 + 1 := by decide
    rw [h0, h15, ticks_add 1499 1 startedSample25,
      ticks_decrement 1499 startedSample25 (by decide) (by decide)]
    decide
  · decide

/-- C1 amended: for every duration d > 0 minutes, createStudySession
stores earned_coins = max(1, floor(d / 10)) — 1 for d in [1, 9], 2 for
d = 25, 10 for d = 100 — while the Countdown Engine's completion path
computes its coin award from the duration in seconds,
max(1, floor(60 d / 10)) = 6 d coins for a d-minute session. -/
theorem C1_reward_amended (d : Nat) (hd : 1 ≤ d) (uid date : String)
    (moduleId : Option String) (notes : Option String) (s : TimerState)
    (hdur : s.duration = 60 * d) (htl : s.timeLeft = 1)
    (hiv : s.intervals ≠ []) :
    (Store.newSessionPayload uid moduleId d date notes).earned_coins = max 1 (d / 10) ∧
    (d ≤ 9 → (Store.newSessionPayload uid moduleId d date notes).earned_coins = 1) ∧
    (d = 25 → (Store.newSessionPayload uid moduleId d date notes).earned_coins = 2) ∧
    (d = 100 → (Store.newSessionPayload uid moduleId d date notes).earned_coins = 10) ∧
    (tick s).1.coins = s.coins + 6 * d := by
  refine ⟨rfl, ?_, ?_, ?_, ?_⟩
  · intro h
    simp [Store.newSessionPayload]
    omega
  · intro h
    simp [Store.newSessionPayload, h]
  · intro h
    simp [Store.newSessionPayload, h]
  · unfold tick
    rw [if_neg hiv, if_pos (by omega), if_neg (by omega)]
    have hmax : max 1 (s.duration / 10) = 6 * d := by
      rw [hdur]
      omega
    simp [clearTick_coins, hmax]

/-- Witness for the amended C1 at d = 25: earned_coins 2 in the store,
150 coins in the engine. -/
theorem C1_reward_amended_witness :
    (1 : Nat) ≤ 25 ∧
    (Store.newSessionPayload "u1" (some "topicA") 25 "2026-01-10" none).earned_coins =
      max 1 (25 / 10) ∧
    (tick longRunSample).1.coins = longRunSample.coins + 6 * 25 :=
  have h := C1_reward_amended 25 (by decide) "u1" "2026-01-10" (some "topicA") none
    longRunSample rfl rfl (by decide)
  ⟨by decide, h.1, h.2.2.2.2⟩

namespace Store

/-- C4: when no authenticated user exists, or when the remote insert
reports an error, createStudySession returns a null result and leaves the
store (in particular the sessions cache) unchanged; the failure is caught
inside the operation (the embedded function is total), never reaching the
caller. -/
theorem C4_createStudySession_failure (st : StoreState)
    (insertRes : NewSession → Except String (Option StudySession))
    (uid errMsg : String) (moduleId : Option String) (duration : Nat)
    (date : String) (notes : Option String) :
    createStudySession none insertRes st moduleId duration date notes = (st, none) ∧
    createStudySession (some uid) (fun p => Except.error errMsg) st moduleId
      duration date notes = (st, none) :=
  ⟨rfl, rfl⟩

/-- Witness for C4 at concrete inputs. -/
theorem C4_createStudySession_failure_witness :
    createStudySession none (fun p => Except.error "network") initialStore
      (some "topicA") 25 "2026-01-10" none = (initialStore, none) ∧
    createStudySession (some "u1") (fun p => Except.error "network") initialStore
      (some "topicA") 25 "2026-01-10" none = (initialStore, none) :=
  have h := C4_createStudySession_failure initialStore
    (fun p => Except.error "network") "u1" "network" (some "topicA") 25
    "2026-01-10" none
  ⟨h.1, h.2⟩

/-- C5 counterexample: with an authenticated user, a failed modules query
(null data) and a successful sessions query, initialization leaves the
sessions cache non-empty — the query error is silently dropped and later
steps still populate their caches, contradicting the claim that any
failing step leaves both caches in their prior empty state. -/
theorem C5_fetchData_counterexample :
    (fetchData (some "u1") none (some [sampleSession "s1" (some "topicA") 30])
      initialStore).sessions ≠ [] ∧
    (fetchData (some "u1") none (some [sampleSession "s1" (some "topicA") 30])
      initialStore).modules = [] := by
  decide

/-- C5 amended: when initialization finds no authenticated identity both
caches remain in their prior empty state (only the missing-user check
throws; its failure is caught and does not propagate, the model being
total); a failed individual query only leaves its own cache empty while
later steps still run; and on every path the final step clears
isLoading. -/
theorem C5_fetchData_amended :
    (∀ modulesRes sessionsRes,
      fetchData none modulesRes sessionsRes initialStore =
        { sessions := [], modules := [], isLoading := false }) ∧
    (∀ userRes modulesRes sessionsRes st,
      (fetchData userRes modulesRes sessionsRes st).isLoading = false) := by
  constructor
  · intro mr sr
    rfl
  · intro ur mr sr st
    cases ur <;> rfl

/-- Witness for the amended C5 at concrete inputs. -/
theorem C5_fetchData_amended_witness :
    fetchData none none none initialStore =
      { sessions := [], modules := [], isLoading := false } ∧
    (fetchData (some "u1") none none initialStore).isLoading = false :=
  have h := C5_fetchData_amended
  ⟨h.1 none none, h.2 (some "u1") none none initialStore⟩

end Store

namespace Store

lemma addStat_statVal (stats : List (String × Nat)) (id id2 : String) (d : Nat) :
    statVal (addStat stats id d) id2 =
      statVal stats id2 + (if id2 = id then d else 0) := by
  unfold addStat
  by_cases hany : stats.any (fun p => p.1 == id)
  · rw [if_pos hany]
    unfold statVal
    rw [List.find?_map]
    have hfun : ((fun p : String × Nat => p.1 == id2) ∘
        (fun p : String × Nat => if p.1 == id then (p.1, p.2 + d) else p)) =
        (fun p : String × Nat => p.1 == id2) := by
      funext q
      by_cases hq : q.1 = id <;> simp [hq]
    rw [hfun]
    by_cases hid : id2 = id
    · subst hid
      obtain ⟨p0, hp0mem, hp0⟩ := List.any_eq_true.mp hany
      have hsome : (stats.find? (fun p => p.1 == id2)).isSome :=
        List.find?_isSome.mpr ⟨p0, hp0mem, hp0⟩
      obtain ⟨q0, hq0⟩ := Option.isSome_iff_exists.mp hsome
      have hq0p := List.find?_some hq0
      have hq0e : q0.1 = id2 := by simpa using hq0p
      rw [hq0]
      simp [hq0e]
    · cases hf : stats.find? (fun p => p.1 == id2) with
      | none => simp [hf, hid]
      | some q0 =>
        have hq0p := List.find?_some hf
        have hq0e : q0.1 = id2 := by simpa using hq0p
        simp [hf, hq0e, hid]
  · rw [if_neg hany]
    unfold statVal
    rw [List.find?_append]
    have hnone : stats.find? (fun p => p.1 == id) = none := by
      rw [List.find?_eq_none]
      intro x hx
      by_contra hc
      exact hany (List.any_eq_true.mpr ⟨x, hx, by simpa using hc⟩)
    by_cases hid : id2 = id
    · subst hid
      rw [hnone]
      simp
    · have hne : (id == id2) = false := by
        simp
        exact fun he => hid he.symm
      simp [List.find?_cons, hne, hid]

lemma statVal_of_mem (stats : List (String × Nat)) (p : String × Nat)
    (hmem : p ∈ stats) (hnd : (statKeys stats).Nodup) :
    statVal stats p.1 = p.2 := by
  induction stats with
  | nil => cases hmem
  | cons q rest ih =>
    have hnd2 : q.1 ∉ statKeys rest ∧ (statKeys rest).Nodup := by
      rw [statKeys, List.map_cons, List.nodup_cons] at hnd
      exact hnd
    rcases List.mem_cons.mp hmem with rfl | hmem2
    · unfold statVal
      simp [List.find?_cons]
    · have hne : q.1 ≠ p.1 := by
        intro he
        apply hnd2.1
        rw [he]
        exact List.mem_map.mpr ⟨p, hmem2, rfl⟩
      have hb : (q.1 == p.1) = false := by simp [hne]
      unfold statVal
      simp only [List.find?_cons, hb]
      exact ih hmem2 hnd2.2

lemma addStat_keys_of_any (stats : List (String × Nat)) (id : String) (d : Nat)
    (hany : stats.any (fun p => p.1 == id) = true) :
    statKeys (addStat stats id d) = statKeys stats := by
  unfold addStat statKeys
  rw [if_pos hany, List.map_map]
  apply List.map_congr_left
  intro p hp
  by_cases hq : p.1 = id <;> simp [hq]

lemma addStat_keys_of_not_any (stats : List (String × Nat)) (id : String) (d : Nat)
    (hany : stats.any (fun p => p.1 == id) = false) :
    statKeys (addStat stats id d) = statKeys stats ++ [id] := by
  unfold addStat statKeys
  rw [if_neg (by simp [hany]), List.map_append]
  rfl

lemma addStat_keys_mem (stats : List (String × Nat)) (id id2 : String) (d : Nat) :
    id2 ∈ statKeys (addStat stats id d) ↔ id2 ∈ statKeys stats ∨ id2 = id := by
  cases hany : stats.any (fun p => p.1 == id) with
  | true =>
    rw [addStat_keys_of_any stats id d hany]
    constructor
    · exact Or.inl
    · rintro (h | rfl)
      · exact h
      · obtain ⟨p0, hp0mem, hp0⟩ := List.any_eq_true.mp hany
        exact List.mem_map.mpr ⟨p0, hp0mem, by simpa using hp0⟩
  | false =>
    rw [addStat_keys_of_not_any stats id d hany]
    simp

lemma addStat_keys_nodup (stats : List (String × Nat)) (id : String) (d : Nat)
    (hnd : (statKeys stats).Nodup) : (statKeys (addStat stats id d)).Nodup := by
  cases hany : stats.any (fun p => p.1 == id) with
  | true => rw [addStat_keys_of_any stats id d hany]; exact hnd
  | false =>
    rw [addStat_keys_of_not_any stats id d hany]
    have hnotmem : id ∉ statKeys stats := by
      intro hmem
      obtain ⟨p, hp, hp1⟩ := List.mem_map.mp hmem
      have : stats.any (fun p => p.1 == id) = true :=
        List.any_eq_true.mpr ⟨p, hp, by simp [hp1]⟩
      simp [this] at hany
    simp [List.nodup_append, hnd, hnotmem]

lemma foldl_statStep_statVal (l : List StudySession) :
    ∀ (acc : List (String × Nat)) (id : String),
      statVal (l.foldl statStep acc) id = statVal acc id + specTopicTotal l id := by
  induction l with
  | nil =>
    intro acc id
    simp [specTopicTotal]
  | cons s rest ih =>
    intro acc id
    rw [List.foldl_cons, ih]
    cases hm : s.module_id with
    | none =>
      simp [statStep, hm, specTopicTotal, List.filter_cons]
    | some mid =>
      simp only [statStep, hm]
      rw [addStat_statVal]
      unfold specTopicTotal
      rw [List.filter_cons]
      by_cases hid : id = mid
      · subst hid
        simp [hm]
        omega
      · have hb : (s.module_id == some id) = false := by
          simp [hm]
          exact fun he => hid he.symm
        simp [hb, hid]

lemma foldl_statStep_keys (l : List StudySession) :
    ∀ (acc : List (String × Nat)) (id : String),
      id ∈ statKeys (l.foldl statStep acc) ↔
        id ∈ statKeys acc ∨ ∃ s ∈ l, s.module_id = some id := by
  induction l with
  | nil =>
    intro acc id
    simp
  | cons s rest ih =>
    intro acc id
    rw [List.foldl_cons, ih]
    cases hm : s.module_id with
    | none =>
      simp [statStep, hm]
    | some mid =>
      simp only [statStep, hm]
      rw [addStat_keys_mem]
      simp only [List.mem_cons]
      constructor
      · rintro ((h | rfl) | h)
        · exact Or.inl h
        · exact Or.inr ⟨s, Or.inl rfl, hm⟩
        · obtain ⟨t, ht, htid⟩ := h
          exact Or.inr ⟨t, Or.inr ht, htid⟩
      · rintro (h | ⟨t, (rfl | ht), htid⟩)
        · exact Or.inl (Or.inl h)
        · rw [hm] at htid
          exact Or.inl (Or.inr (by injection htid with h1; exact h1.symm))
        · exact Or.inr ⟨t, ht, htid⟩

lemma foldl_statStep_nodup (l : List StudySession) :
    ∀ acc, (statKeys acc).Nodup → (statKeys (l.foldl statStep acc)).Nodup := by
  induction l with
  | nil =>
    intro acc h
    simpa using h
  | cons s rest ih =>
    intro acc h
    rw [List.foldl_cons]
    apply ih
    cases hm : s.module_id with
    | none => simpa [statStep, hm] using h
    | some mid =>
      simp only [statStep, hm]
      exact addStat_keys_nodup acc mid s.duration h

/-- C8: getMostStudiedModules groups the cached sessions by module id
(entries with no module_id excluded), sums duration per group, returns
the groups sorted in descending order of total duration with the display
title resolved through resolveModuleName (Topic cache lookup with an
Unknown Module placeholder); on the worked example, sessions topicA 30,
topicB 10, topicA 5 yield topicA 35 before topicB 10. -/
theorem C8_mostStudiedModules (sessions : List StudySession) (modules : List Module) :
    List.Pairwise (fun a b => b.duration ≤ a.duration)
      (getMostStudiedModules sessions modules) ∧
    (∀ e ∈ getMostStudiedModules sessions modules,
      e.duration = specTopicTotal sessions e.moduleId) ∧
    (∀ e ∈ getMostStudiedModules sessions modules,
      e.moduleName = resolveModuleName modules e.moduleId) ∧
    (∀ id, (∃ e ∈ getMostStudiedModules sessions modules, e.moduleId = id) ↔
      ∃ s ∈ sessions, s.module_id = some id) ∧
    getMostStudiedModules exSessions exModules = [exEntryA, exEntryB] := by
  have hnd : (statKeys (buildStats sessions)).Nodup :=
    foldl_statStep_nodup sessions [] (by simp [statKeys])
  refine ⟨?_, ?_, ?_, ?_, ?_⟩
  · unfold getMostStudiedModules
    rw [List.pairwise_map]
    have hs := @List.sorted_mergeSort (String × Nat)
      (fun a b => decide (b.2 ≤ a.2))
      (by
        intro a b c hab hbc
        simp at hab hbc ⊢
        omega)
      (by
        intro a b
        simp
        omega)
      (buildStats sessions)
    refine hs.imp ?_
    intro a b hab
    simpa using hab
  · intro e he
    unfold getMostStudiedModules at he
    rw [List.mem_map] at he
    obtain ⟨p, hp, rfl⟩ := he
    rw [List.mem_mergeSort] at hp
    show p.2 = specTopicTotal sessions p.1
    have h1 : statVal (buildStats sessions) p.1 = p.2 :=
      statVal_of_mem (buildStats sessions) p hp hnd
    have h2 := foldl_statStep_statVal sessions [] p.1
    unfold buildStats at h1
    rw [h2] at h1
    simpa [statVal] using h1.symm
  · intro e he
    unfold getMostStudiedModules at he
    rw [List.mem_map] at he
    obtain ⟨p, hp, rfl⟩ := he
    rfl
  · intro id
    constructor
    · rintro ⟨e, he, rfl⟩
      unfold getMostStudiedModules at he
      rw [List.mem_map] at he
      obtain ⟨p, hp, rfl⟩ := he
      rw [List.mem_mergeSort] at hp
      show ∃ s ∈ sessions, s.module_id = some p.1
      have hmem : p.1 ∈ statKeys (buildStats sessions) :=
        List.mem_map.mpr ⟨p, hp, rfl⟩
      have h3 := (foldl_statStep_keys sessions [] p.1).mp hmem
      rcases h3 with h3 | h3
      · simp [statKeys] at h3
      · exact h3
    · rintro ⟨s, hs, hsid⟩
      have h4 : id ∈ statKeys (buildStats sessions) :=
        (foldl_statStep_keys sessions [] id).mpr (Or.inr ⟨s, hs, hsid⟩)
      obtain ⟨p, hp, hp1⟩ := List.mem_map.mp h4
      refine ⟨{ moduleId := p.1, duration := p.2,
                moduleName := resolveModuleName modules p.1 }, ?_, hp1⟩
      unfold getMostStudiedModules
      exact List.mem_map.mpr ⟨p, List.mem_mergeSort.mpr hp, rfl⟩
  · have h1 : buildStats exSessions = [("topicA", 35), ("topicB", 10)] := by
      decide
    have h2 : ([("topicA", 35), ("topicB", 10)] : List (String × Nat)).mergeSort
        (fun a b => decide (b.2 ≤ a.2)) = [("topicA", 35), ("topicB", 10)] := by
      simp [List.mergeSort]
    unfold getMostStudiedModules
    rw [h1, h2]
    decide

/-- Witness for C8: the worked example evaluates as claimed and its first
entry carries the summed duration of topicA. -/
theorem C8_mostStudiedModules_witness :
    getMostStudiedModules exSessions exModules = [exEntryA, exEntryB] ∧
    exEntryA.duration = specTopicTotal exSessions exEntryA.moduleId := by
  have h := C8_mostStudiedModules exSessions exModules
  refine ⟨h.2.2.2.2, h.2.1 exEntryA ?_⟩
  rw [h.2.2.2.2]
  decide

end Store
